import Mathlib

/-!
Verification of the Analytics & Recommendation Engine of the SPAP student
productivity tracker (`src/controllers.py`, data model in `src/models.py`).

Embedding conventions:
* Python floats are modelled as exact rationals (`ℚ`); `round(x, n)` is
  modelled as round-half-to-even at `n` decimal digits (`roundTo`), the
  idealisation of Python's rounding of a decimal-exact value.
* `datetime` instants are modelled as rational day counts on the proleptic
  Gregorian ordinal scale used by CPython's `date.toordinal` (day 1 =
  0001-01-01); the whole-day difference `(due - today).days` is `⌊due - today⌋`,
  matching `timedelta.days` (floor division).
* `datetime.strptime(s, "%Y-%m-%d")` is modelled by `parseYMD` below, which
  follows CPython's `_strptime` regex for `%Y-%m-%d` (exactly four digits of
  year, one or two digits of month and day per the alternations `1[0-2]|0[1-9]|[1-9]`
  and `3[01]|[12]\d|0[1-9]|[1-9]`), requires the whole string to be consumed,
  and then validates the calendar date as the `datetime` constructor does
  (year at least 1, day at most the month length, Gregorian leap rule).
  Digits are modelled as ASCII digits, and the case-insensitive "TBD" test is
  modelled by per-character ASCII upcasing, as in `str.upper` on ASCII data.
* `datetime.now()`, read inside `get_smart_recommendation`, is surfaced as the
  explicit parameter `today : ℚ`.
-/

namespace SPAP

/-- Task lifecycle status, from `models.Status` (an `IntEnum`). -/
inductive Status where
  | TODO
  | IN_PROGRESS
  | DONE
  deriving DecidableEq, Repr

/-- The integer value of a `Status`, as fixed by the `IntEnum` in `models.py`;
the controllers compare this value with the literal `3`. -/
def Status.toInt : Status → ℤ
  | .TODO => 1
  | .IN_PROGRESS => 2
  | .DONE => 3

/-- Study-session type, from `models.Type` (an `IntEnum`; named `SessionType`
here because `Type` is a Lean keyword). -/
inductive SessionType where
  | LECTURE
  | STUDY
  | CLASSWORK
  deriving DecidableEq, Repr

/-- The runtime value of the `due_date` (and `date_assigned`) field of a task.
In the Python sources this field may hold `None`, a string (as reloaded from
JSON or typed by the user), or a `datetime` object; the `dt` constructor
carries the instant on the ordinal-day scale (possibly fractional). -/
inductive DueDate where
  | none
  | str (s : String)
  | dt (t : ℚ)
  deriving DecidableEq, Repr

/-- A task record, from `models.Task`. -/
structure Task where
  task_id : ℤ
  title : String
  date_assigned : DueDate
  due_date : DueDate
  weighted_percent : ℚ
  points_earned : ℚ
  task_status : Status
  total_work_time : ℚ
  deriving DecidableEq, Repr

/-- A study-session record, from `models.StudySession`. -/
structure StudySession where
  session_id : ℤ
  start_time : ℚ
  duration_minutes : ℤ
  session_type : SessionType
  session_task : Option Task
  deriving DecidableEq, Repr

/-- A per-day grouping of sessions and tasks, from `models.Day`. -/
structure Day where
  date : ℚ
  productivity_score : ℚ
  study_sessions : List StudySession
  tasks : List Task
  deriving DecidableEq, Repr

/-- A course record, from `models.Course`. -/
structure Course where
  course_id : String
  hours_study : ℚ
  hours_lecture : ℚ
  hours_classwork : ℚ
  grade_percent : ℚ
  tasks : List Task
  calendar : List Day
  deriving DecidableEq, Repr

/-- A student record, from `models.Student` (the password hash is kept as an
opaque string; the analytics engine never reads it). -/
structure Student where
  email : String
  password_hash : String
  student_id : ℤ
  courses : List Course
  tasks : List Task
  study_sessions : List StudySession
  deriving DecidableEq, Repr

/-! ## Calendar arithmetic (CPython `datetime` internals) -/

/-- Gregorian leap-year rule, as in CPython's `datetime._is_leap`. -/
def isLeap (y : ℕ) : Bool :=
  y % 4 = 0 && (y % 100 ≠ 0 || y % 400 = 0)

/-- Length of month `m` of year `y`, as in CPython's `datetime._days_in_month`. -/
def daysInMonth (y m : ℕ) : ℕ :=
  if m = 2 then (if isLeap y then 29 else 28)
  else if m = 4 ∨ m = 6 ∨ m = 9 ∨ m = 11 then 30
  else 31

/-- Days in the non-leap year before the first of month `m`, as in CPython's
`datetime._days_before_month` table. -/
def daysBeforeMonth (m : ℕ) : ℕ :=
  match m with
  | 1 => 0
  | 2 => 31
  | 3 => 59
  | 4 => 90
  | 5 => 120
  | 6 => 151
  | 7 => 181
  | 8 => 212
  | 9 => 243
  | 10 => 273
  | 11 => 304
  | 12 => 334
  | _ => 0

/-- Proleptic Gregorian ordinal of the date `y-m-d` (day 1 = 0001-01-01), as
in CPython's `datetime._ymd2ord`. -/
def toOrdinal (y m d : ℕ) : ℤ :=
  let py := y - 1
  ((365 * py + py / 4 - py / 100 + py / 400
      + daysBeforeMonth m + (if 2 < m ∧ isLeap y then 1 else 0) + d : ℕ) : ℤ)

/-- Numeric value of an ASCII digit character. -/
def digitVal (c : Char) : ℕ := c.toNat - 48

/-- Month parser for `%m`: CPython `_strptime` matches the regex alternation
`1[0-2]|0[1-9]|[1-9]` (two-digit forms first), returning the month and the
unconsumed characters. -/
def parseMonth : List Char → Option (ℕ × List Char)
  | c₁ :: c₂ :: rest =>
      if c₁ = '1' ∧ (c₂ = '0' ∨ c₂ = '1' ∨ c₂ = '2') then
        some (10 + digitVal c₂, rest)
      else if c₁ = '0' ∧ c₂.isDigit ∧ c₂ ≠ '0' then
        some (digitVal c₂, rest)
      else if c₁.isDigit ∧ c₁ ≠ '0' then
        some (digitVal c₁, c₂ :: rest)
      else none
  | [c₁] =>
      if c₁.isDigit ∧ c₁ ≠ '0' then some (digitVal c₁, []) else none
  | [] => none

/-- Day parser for `%d`: CPython `_strptime` matches the regex alternation
`3[01]|[12]\d|0[1-9]|[1-9]` (two-digit forms first), returning the day and the
unconsumed characters. -/
def parseDay : List Char → Option (ℕ × List Char)
  | c₁ :: c₂ :: rest =>
      if c₁ = '3' ∧ (c₂ = '0' ∨ c₂ = '1') then
        some (30 + digitVal c₂, rest)
      else if (c₁ = '1' ∨ c₁ = '2') ∧ c₂.isDigit then
        some (10 * digitVal c₁ + digitVal c₂, rest)
      else if c₁ = '0' ∧ c₂.isDigit ∧ c₂ ≠ '0' then
        some (digitVal c₂, rest)
      else if c₁.isDigit ∧ c₁ ≠ '0' then
        some (digitVal c₁, c₂ :: rest)
      else none
  | [c₁] =>
      if c₁.isDigit ∧ c₁ ≠ '0' then some (digitVal c₁, []) else none
  | [] => none

/-- Model of `datetime.strptime(s, "%Y-%m-%d")`: four ASCII digits of year, a
hyphen, a month per `parseMonth`, a hyphen, a day per `parseDay`, nothing left
over, and then the `datetime` constructor's validity check (year at least 1,
day within the month).  Returns the proleptic Gregorian ordinal of the parsed
date, or `none` where CPython raises `ValueError`. -/
def parseYMD : List Char → Option ℤ
  | c₁ :: c₂ :: c₃ :: c₄ :: '-' :: rest =>
      if c₁.isDigit ∧ c₂.isDigit ∧ c₃.isDigit ∧ c₄.isDigit then
        let y := 1000 * digitVal c₁ + 100 * digitVal c₂ + 10 * digitVal c₃ + digitVal c₄
        match parseMonth rest with
        | some (m, '-' :: rest₂) =>
            match parseDay rest₂ with
            | some (d, []) =>
                if 1 ≤ y ∧ d ≤ daysInMonth y m then some (toOrdinal y m d) else none
            | _ => none
        | _ => none
      else none
  | _ => none

/-! ## Rounding (Python `round`) -/

/-- Round a rational to the nearest integer, halves to even: the idealisation
of Python's `round` on an exact value. -/
def roundHalfEven (x : ℚ) : ℤ :=
  let f := ⌊x⌋
  let frac := x - f
  if frac < 1 / 2 then f
  else if 1 / 2 < frac then f + 1
  else if f % 2 = 0 then f else f + 1

/-- Model of Python's `round(x, n)`: round half to even at `n` decimal digits. -/
def roundTo (x : ℚ) (n : ℕ) : ℚ :=
  (roundHalfEven (x * 10 ^ n) : ℚ) / 10 ^ n

/-! ## AnalyticsEngine -/

/-- `AnalyticsEngine.calculate_daily_score`: 10 points per hour of accumulated
work on each task of the day, plus a flat 50 points per task whose status is
DONE (`task_status == 3`), rounded to 1 decimal place. -/
def calculate_daily_score (day : Day) : ℚ :=
  let score := day.tasks.foldl
    (fun score task =>
      let hours_studied := task.total_work_time / 60
      let score := score + hours_studied * 10
      if task.task_status.toInt = 3 then score + 50 else score)
    0
  roundTo score 1

/-- `AnalyticsEngine.calculate_course_grade`: weighted average over the
course's tasks; tasks with `points_earned > 0` contribute
`(points_earned / 100) * weighted_percent` to the numerator, every task's
weight counts in the denominator, and a zero total weight yields 0. -/
def calculate_course_grade (course : Course) : ℚ :=
  let total_weight := (course.tasks.map fun t => t.weighted_percent).sum
  if total_weight = 0 then 0
  else
    let weighted_sum :=
      ((course.tasks.filter fun t => 0 < t.points_earned).map
        fun t => t.points_earned / 100 * t.weighted_percent).sum
    roundTo (weighted_sum / total_weight * 100) 2

/-- `AnalyticsEngine._merge`: merge two lists already sorted in descending
score order, emitting the left head whenever its score is greater than or
equal to the right head's. -/
def _merge {α : Type} : List α → List α → (α → ℚ) → List α
  | [], right, _ => right
  | left, [], _ => left
  | a :: l, b :: r, score_func =>
      if score_func a ≥ score_func b then a :: _merge l (b :: r) score_func
      else b :: _merge (a :: l) r score_func
termination_by l r _ => l.length + r.length

/-- `AnalyticsEngine._merge_sort_tasks`: divide-and-conquer descending sort;
lists of length at most 1 are returned unchanged, otherwise the list is split
at `len // 2`, both halves are sorted recursively and merged. -/
def _merge_sort_tasks {α : Type} (tasks : List α) (score_func : α → ℚ) : List α :=
  if tasks.length ≤ 1 then tasks
  else
    let mid := tasks.length / 2
    let left_half := tasks.take mid
    let right_half := tasks.drop mid
    _merge (_merge_sort_tasks left_half score_func)
      (_merge_sort_tasks right_half score_func) score_func
termination_by tasks.length
decreasing_by
  · simp only [left_half, mid, List.length_take]
    omega
  · simp only [right_half, mid, List.length_drop]
    omega

/-- The nested `urgency_heuristic` of `get_smart_recommendation`: `-1` for a
missing, falsy or (case-insensitively) "TBD" due date and for a date string
`strptime` rejects; otherwise `weighted_percent / max(days_left, 0.1)` where
`days_left` is the whole-day difference between the due date and `today`. -/
def urgency_heuristic (task : Task) (today : ℚ) : ℚ :=
  match task.due_date with
  | .none => -1
  | .str s =>
      let cs := s.toList
      if cs = [] ∨ cs.map Char.toUpper = ['T', 'B', 'D'] then -1
      else
        match parseYMD cs with
        | some ord =>
            let delta : ℤ := ⌊(ord : ℚ) - today⌋
            let days_left : ℚ := max (delta : ℚ) (1 / 10)
            task.weighted_percent / days_left
        | none => -1
  | .dt due =>
      let delta : ℤ := ⌊due - today⌋
      let days_left : ℚ := max (delta : ℚ) (1 / 10)
      task.weighted_percent / days_left

/-- Fixed-point rendering of a score as in the f-string `{score:.1f}`:
round-half-even to tenths, then sign, integer part, dot, one digit. -/
def formatFix1 (q : ℚ) : String :=
  let tenths := roundHalfEven (q * 10)
  (if tenths < 0 then "-" else "")
    ++ toString (tenths.natAbs / 10) ++ "." ++ toString (tenths.natAbs % 10)

/-- Rendering of a float field as in the f-string `{top_task.weighted_percent}`.
Python prints the shortest `repr` of the binary float; that rendering is
approximated here (integral values print as `n.0`, which covers every value
the claims touch; no claim depends on this text). -/
def pyFloatStr (q : ℚ) : String :=
  if q.den = 1 then toString q.num ++ ".0"
  else toString q.num ++ "/" ++ toString q.den

/-- The recommendation message built at the end of `get_smart_recommendation`:
the displayed days-remaining re-parses the winner's due date with `strptime`
and falls back to "?" on any failure (non-string due dates raise `TypeError`,
bad strings raise `ValueError`; the bare `except` catches both). -/
def recMessage (top_task : Task) (score today : ℚ) : String :=
  let days_remaining : String :=
    match top_task.due_date with
    | DueDate.str s =>
        match parseYMD s.toList with
        | some ord => toString (⌊(ord : ℚ) - today⌋)
        | none => "?"
    | _ => "?"
  "Priority Score: " ++ formatFix1 score ++ " (Weight: "
    ++ pyFloatStr top_task.weighted_percent ++ "% / Days Left: "
    ++ days_remaining ++ ")"

/-- `AnalyticsEngine.get_smart_recommendation`: filter out DONE tasks, return
a terminal message when none remain, otherwise rank by the urgency heuristic
with the custom merge sort and return the top task with a formatted message.
The `[]` match arm is unreachable (sorting preserves nonemptiness); the
Python source indexes `sorted_tasks[0]` directly. -/
def get_smart_recommendation (student : Student) (today : ℚ) : Option Task × String :=
  let active_tasks := student.tasks.filter fun t => t.task_status.toInt != 3
  if active_tasks.isEmpty then
    (none, "No active tasks found! You are free.")
  else
    match _merge_sort_tasks active_tasks (fun t => urgency_heuristic t today) with
    | [] => (none, "No active tasks found! You are free.")
    | top_task :: _ =>
        (some top_task, recMessage top_task (urgency_heuristic top_task today) today)

/-! ## Sample data used by concrete witnesses and counterexamples -/

/-- Descending-lexicographic order on position-tagged items: either a strictly
larger score, or an equal score and a strictly smaller original position. -/
def keyTag {α : Type} (f : α → ℚ) (p q : ℕ × α) : Prop :=
  f q.2 < f p.2 ∨ (f p.2 = f q.2 ∧ p.1 < q.1)
def wTaskC2 : Task :=
  { task_id := 1, title := "hw1", date_assigned := DueDate.none,
    due_date := DueDate.str "2025-01-03", weighted_percent := 40,
    points_earned := 0, task_status := Status.TODO, total_work_time := 0 }
def wTaskC3 : Task :=
  { task_id := 2, title := "quiz", date_assigned := DueDate.none,
    due_date := DueDate.str "tbd", weighted_percent := 90,
    points_earned := 0, task_status := Status.TODO, total_work_time := 0 }
def wCourseEmpty : Course :=
  { course_id := "EMPTY", hours_study := 0, hours_lecture := 0,
    hours_classwork := 0, grade_percent := 0, tasks := [], calendar := [] }
def wTaskC10 : Task :=
  { task_id := 1, title := "t", date_assigned := DueDate.none,
    due_date := DueDate.none, weighted_percent := 50, points_earned := 80,
    task_status := Status.DONE, total_work_time := 0 }
def wCourseC10 : Course :=
  { course_id := "W", hours_study := 0, hours_lecture := 0,
    hours_classwork := 0, grade_percent := 0, tasks := [wTaskC10],
    calendar := [] }
def wStudent : Student :=
  { email := "s@dal.ca", password_hash := "", student_id := 7,
    courses := [], tasks := [wTaskC3, wTaskC2], study_sessions := [] }
def wToday : ℚ := ((toOrdinal 2025 1 1 : ℤ) : ℚ)
def wTaskDone : Task :=
  { task_id := 4, title := "done", date_assigned := DueDate.none,
    due_date := DueDate.none, weighted_percent := 10, points_earned := 100,
    task_status := Status.DONE, total_work_time := 30 }
def wStudentDone : Student :=
  { email := "d@dal.ca", password_hash := "", student_id := 9,
    courses := [], tasks := [wTaskDone], study_sessions := [] }
def probeTaskA : Task :=
  { task_id := 11, title := "A", date_assigned := DueDate.none,
    due_date := DueDate.str "2025-01-10", weighted_percent := 30,
    points_earned := 0, task_status := Status.TODO, total_work_time := 0 }
def probeTaskB : Task :=
  { task_id := 12, title := "B", date_assigned := DueDate.none,
    due_date := DueDate.str "2025-01-20", weighted_percent := 100,
    points_earned := 0, task_status := Status.TODO, total_work_time := 0 }
def probeStudent : Student :=
  { email := "p@dal.ca", password_hash := "", student_id := 8,
    courses := [], tasks := [probeTaskA, probeTaskB], study_sessions := [] }
def probeT1 : ℚ := ((toOrdinal 2024 12 1 : ℤ) : ℚ)
def probeT2 : ℚ := ((toOrdinal 2025 1 8 : ℤ) : ℚ)

/-! ## Ranker infrastructure -/

variable {α : Type}

lemma merge_nil_left (r : List α) (f : α → ℚ) : _merge [] r f = r := by
  simp [_merge]

lemma merge_nil_right (l : List α) (f : α → ℚ) : _merge l [] f = l := by
  cases l <;> simp [_merge]

lemma merge_cons_cons (a b : α) (l r : List α) (f : α → ℚ) :
    _merge (a :: l) (b :: r) f =
      if f a ≥ f b then a :: _merge l (b :: r) f else b :: _merge (a :: l) r f := by
  simp [_merge]

lemma merge_perm (l r : List α) (f : α → ℚ) : (_merge l r f).Perm (l ++ r) := by
  have key : ∀ (n : ℕ) (l r : List α), l.length + r.length ≤ n →
      (_merge l r f).Perm (l ++ r) := by
    intro n
    induction n with
    | zero =>
      intro l r h
      cases l with
      | nil => simp [merge_nil_left]
      | cons a l => simp at h
    | succ n ih =>
      intro l r h
      cases l with
      | nil => simp [merge_nil_left]
      | cons a l =>
        cases r with
        | nil => simp [merge_nil_right]
        | cons b r =>
          rw [merge_cons_cons]
          by_cases hc : f a ≥ f b
          · rw [if_pos hc]
            exact (ih l (b :: r) (by simp at h ⊢; omega)).cons a
          · rw [if_neg hc]
            refine ((ih (a :: l) r (by simp at h ⊢; omega)).cons b).trans ?_
            exact List.perm_middle.symm
  exact key (l.length + r.length) l r le_rfl

lemma merge_mem {x : α} {l r : List α} {f : α → ℚ} (h : x ∈ _merge l r f) :
    x ∈ l ∨ x ∈ r := by
  have := (merge_perm l r f).mem_iff.mp h
  simpa using this

/-- Abstract merge lemma: merging two `R`-pairwise lists whose cross pairs are
compatible with the score comparison yields an `R`-pairwise list. -/
lemma merge_pairwise (f : α → ℚ) (R : α → α → Prop)
    (hf : ∀ a b, R a b → f b ≤ f a) (l r : List α)
    (hcmp : ∀ a ∈ l, ∀ b ∈ r, (f b ≤ f a → R a b) ∧ (f a < f b → R b a))
    (hl : l.Pairwise R) (hr : r.Pairwise R) : (_merge l r f).Pairwise R := by
  have key : ∀ (n : ℕ) (l r : List α), l.length + r.length ≤ n →
      (∀ a ∈ l, ∀ b ∈ r, (f b ≤ f a → R a b) ∧ (f a < f b → R b a)) →
      l.Pairwise R → r.Pairwise R → (_merge l r f).Pairwise R := by
    intro n
    induction n with
    | zero =>
      intro l r h _ _ _
      cases l with
      | nil => simp only [merge_nil_left]; assumption
      | cons a l => simp at h
    | succ n ih =>
      intro l r h hcmp hl hr
      cases l with
      | nil => simp only [merge_nil_left]; exact hr
      | cons a l =>
        cases r with
        | nil => simp only [merge_nil_right]; exact hl
        | cons b r =>
          rw [merge_cons_cons]
          have hal : ∀ x ∈ l, R a x := (List.pairwise_cons.mp hl).1
          have hbr : ∀ x ∈ r, R b x := (List.pairwise_cons.mp hr).1
          by_cases hc : f a ≥ f b
          · rw [if_pos hc]
            refine List.pairwise_cons.mpr ⟨?_, ?_⟩
            · intro x hx
              rcases merge_mem hx with hxl | hxbr
              · exact hal x hxl
              · have hfx : f x ≤ f b := by
                  rcases List.mem_cons.mp hxbr with rfl | hxr
                  · exact le_rfl
                  · exact hf b x (hbr x hxr)
                exact (hcmp a (by simp) x (by simpa using hxbr)).1 (hfx.trans hc)
            · exact ih l (b :: r) (by simp at h ⊢; omega)
                (fun a' ha' b' hb' => hcmp a' (by simp [ha']) b' hb')
                (List.pairwise_cons.mp hl).2 hr
          · rw [if_neg hc]
            push_neg at hc
            refine List.pairwise_cons.mpr ⟨?_, ?_⟩
            · intro x hx
              rcases merge_mem hx with hxal | hxr
              · have hfx : f x ≤ f a := by
                  rcases List.mem_cons.mp hxal with rfl | hxl
                  · exact le_rfl
                  · exact hf a x (hal x hxl)
                exact (hcmp x (by simpa using hxal) b (by simp)).2 (hfx.trans_lt hc)
              · exact hbr x hxr
            · exact ih (a :: l) r (by simp at h ⊢; omega)
                (fun a' ha' b' hb' => hcmp a' ha' b' (by simp [hb']))
                hl (List.pairwise_cons.mp hr).2
  exact key (l.length + r.length) l r le_rfl hcmp hl hr

lemma merge_sort_small (l : List α) (f : α → ℚ) (h : l.length ≤ 1) :
    _merge_sort_tasks l f = l := by
  rw [_merge_sort_tasks]
  simp [h]

lemma merge_sort_rec (l : List α) (f : α → ℚ) (h : ¬ l.length ≤ 1) :
    _merge_sort_tasks l f =
      _merge (_merge_sort_tasks (l.take (l.length / 2)) f)
        (_merge_sort_tasks (l.drop (l.length / 2)) f) f := by
  rw [_merge_sort_tasks]
  simp [h]

lemma merge_sort_perm (l : List α) (f : α → ℚ) : (_merge_sort_tasks l f).Perm l := by
  have key : ∀ (n : ℕ) (l : List α), l.length ≤ n → (_merge_sort_tasks l f).Perm l := by
    intro n
    induction n with
    | zero =>
      intro l h
      rw [merge_sort_small l f (by omega)]
    | succ n ih =>
      intro l h
      by_cases h1 : l.length ≤ 1
      · rw [merge_sort_small l f h1]
      · rw [merge_sort_rec l f h1]
        have ht := ih (l.take (l.length / 2)) (by simp [List.length_take]; omega)
        have hd := ih (l.drop (l.length / 2)) (by simp [List.length_drop]; omega)
        have hp := (merge_perm (_merge_sort_tasks (l.take (l.length / 2)) f)
            (_merge_sort_tasks (l.drop (l.length / 2)) f) f).trans (ht.append hd)
        rwa [List.take_append_drop] at hp
  exact key l.length l le_rfl

lemma merge_sort_mem {x : α} {l : List α} {f : α → ℚ} :
    x ∈ _merge_sort_tasks l f ↔ x ∈ l :=
  (merge_sort_perm l f).mem_iff

/-- The ranker's output is pairwise descending in the score. -/
lemma merge_sort_sorted (l : List α) (f : α → ℚ) :
    (_merge_sort_tasks l f).Pairwise (fun a b => f b ≤ f a) := by
  have key : ∀ (n : ℕ) (l : List α), l.length ≤ n →
      (_merge_sort_tasks l f).Pairwise (fun a b => f b ≤ f a) := by
    intro n
    induction n with
    | zero =>
      intro l h
      rw [merge_sort_small l f (by omega)]
      cases l with
      | nil => exact List.Pairwise.nil
      | cons a l => simp at h
    | succ n ih =>
      intro l h
      by_cases h1 : l.length ≤ 1
      · rw [merge_sort_small l f h1]
        cases l with
        | nil => exact List.Pairwise.nil
        | cons a l =>
          cases l with
          | nil => simp
          | cons b l => simp at h1
      · rw [merge_sort_rec l f h1]
        exact merge_pairwise f _ (fun _ _ h => h) _ _
          (fun a _ b _ => ⟨fun h => h, le_of_lt⟩)
          (ih _ (by simp [List.length_take]; omega))
          (ih _ (by simp [List.length_drop]; omega))
  exact key l.length l le_rfl

/-- Stability of the ranker: on a list of items tagged with strictly
increasing original positions, the output is pairwise descending-lexicographic,
so equal-score items keep their original relative order. -/
lemma merge_sort_stable_keyTag (f : α → ℚ) (l : List (ℕ × α))
    (ht : l.Pairwise (fun p q => p.1 < q.1)) :
    (_merge_sort_tasks l (fun p => f p.2)).Pairwise (keyTag f) := by
  have key : ∀ (n : ℕ) (l : List (ℕ × α)), l.length ≤ n →
      l.Pairwise (fun p q => p.1 < q.1) →
      (_merge_sort_tasks l (fun p => f p.2)).Pairwise (keyTag f) := by
    intro n
    induction n with
    | zero =>
      intro l h _
      rw [merge_sort_small l _ (by omega)]
      cases l with
      | nil => exact List.Pairwise.nil
      | cons a l => simp at h
    | succ n ih =>
      intro l h ht
      by_cases h1 : l.length ≤ 1
      · rw [merge_sort_small l _ h1]
        cases l with
        | nil => exact List.Pairwise.nil
        | cons a l =>
          cases l with
          | nil => simp
          | cons b l => simp at h1
      · rw [merge_sort_rec l _ h1]
        have hsplit : (l.take (l.length / 2) ++ l.drop (l.length / 2)).Pairwise
            (fun p q => p.1 < q.1) := by
          rw [List.take_append_drop]; exact ht
        obtain ⟨htake, hdrop, hcross⟩ := List.pairwise_append.mp hsplit
        refine merge_pairwise _ (keyTag f) ?_ _ _ ?_
          (ih _ (by simp [List.length_take]; omega) htake)
          (ih _ (by simp [List.length_drop]; omega) hdrop)
        · intro p q hpq
          rcases hpq with hlt | ⟨heq, _⟩
          · exact le_of_lt hlt
          · exact le_of_eq heq.symm
        · intro p hp q hq
          have htag : p.1 < q.1 :=
            hcross p (merge_sort_mem.mp hp) q (merge_sort_mem.mp hq)
          constructor
          · intro hle
            rcases lt_or_eq_of_le hle with hlt | heq
            · exact Or.inl hlt
            · exact Or.inr ⟨heq.symm, htag⟩
          · intro hlt
            exact Or.inl hlt
  exact key l.length l le_rfl ht

/-! ## Helper lemmas -/

lemma status_toInt_eq_three_iff (s : Status) : s.toInt = 3 ↔ s = Status.DONE := by
  cases s <;> decide

/-- A string accepted by `parseYMD` starts with four characters and a hyphen,
so it is neither empty nor a case variant of "TBD". -/
lemma parseYMD_shape {cs : List Char} {v : ℤ} (h : parseYMD cs = some v) :
    ∃ c₁ c₂ c₃ c₄ rest, cs = c₁ :: c₂ :: c₃ :: c₄ :: '-' :: rest := by
  match cs with
  | [] => simp [parseYMD] at h
  | [c₁] => simp [parseYMD] at h
  | [c₁, c₂] => simp [parseYMD] at h
  | [c₁, c₂, c₃] => simp [parseYMD] at h
  | [c₁, c₂, c₃, c₄] => simp [parseYMD] at h
  | c₁ :: c₂ :: c₃ :: c₄ :: c₅ :: rest =>
    by_cases hc : c₅ = '-'
    · exact ⟨c₁, c₂, c₃, c₄, rest, by rw [hc]⟩
    · simp [parseYMD, hc] at h

/-! ## Claim C2: urgency of a parsable due date -/

/-- Evaluation of the heuristic on a parsable string due date: the "TBD" and
empty-string guards cannot fire on a string the parser accepts. -/
lemma urgency_parse_eval (t : Task) (today : ℚ) (s : String) (ord : ℤ)
    (hs : t.due_date = DueDate.str s) (hp : parseYMD s.toList = some ord) :
    urgency_heuristic t today =
      t.weighted_percent / max ((⌊(ord : ℚ) - today⌋ : ℚ)) (1 / 10) := by
  obtain ⟨c₁, c₂, c₃, c₄, rest, hcs⟩ := parseYMD_shape hp
  rw [urgency_heuristic, hs]
  rw [hcs] at hp
  simp only [hcs, hp]
  rw [if_neg (by simp)]

/-- C2: for every task whose due date string parses as a `%Y-%m-%d` calendar
date, the urgency heuristic returns `weighted_percent / max(days_left, 0.1)`
with `days_left` the whole-day difference between the due date and now, and
for a date due today or in the past this equals `weighted_percent * 10`. -/
theorem urgency_parsed_formula (t : Task) (today : ℚ) (s : String) (ord : ℤ)
    (hs : t.due_date = DueDate.str s) (hp : parseYMD s.toList = some ord) :
    urgency_heuristic t today =
      t.weighted_percent / max ((⌊(ord : ℚ) - today⌋ : ℚ)) (1 / 10) ∧
    (ord ≤ ⌊today⌋ → urgency_heuristic t today = t.weighted_percent * 10) := by
  have hbody := urgency_parse_eval t today s ord hs hp
  refine ⟨hbody, fun hpast => ?_⟩
  have hd : (⌊(ord : ℚ) - today⌋ : ℤ) ≤ 0 := by
    have h1 : (ord : ℚ) ≤ today := Int.le_floor.mp hpast
    calc ⌊(ord : ℚ) - today⌋ ≤ ⌊(0 : ℚ)⌋ := Int.floor_le_floor (by linarith)
      _ = 0 := Int.floor_zero
  have hmax : max ((⌊(ord : ℚ) - today⌋ : ℚ)) (1 / 10) = 1 / 10 := by
    refine max_eq_right ?_
    have : ((⌊(ord : ℚ) - today⌋ : ℤ) : ℚ) ≤ 0 := by exact_mod_cast hd
    linarith
  rw [hbody, hmax, div_eq_mul_inv]
  norm_num

/-- Witness for C2 at a task worth 40% due exactly on the current day. -/
theorem urgency_parsed_formula_witness :
    urgency_heuristic wTaskC2 ((toOrdinal 2025 1 3 : ℤ) : ℚ) = 40 * 10 :=
  (urgency_parsed_formula wTaskC2 ((toOrdinal 2025 1 3 : ℤ) : ℚ) "2025-01-03"
    (toOrdinal 2025 1 3) rfl (by decide)).2 (by simp)

/-! ## Claim C3: unknown or unparsable due dates score -1 -/

/-- C3: a task whose due date is absent, is a case variant of the sentinel
"TBD", or is a string rejected by the `%Y-%m-%d` parse, gets urgency exactly
-1 (the heuristic is total: no error is raised). -/
theorem urgency_unknown_date_neg_one (t : Task) (today : ℚ)
    (h : t.due_date = DueDate.none ∨
      ∃ s, t.due_date = DueDate.str s ∧
        (s.toList.map Char.toUpper = ['T', 'B', 'D'] ∨ parseYMD s.toList = none)) :
    urgency_heuristic t today = -1 := by
  rcases h with h | ⟨s, hs, htbd | hparse⟩
  · simp only [urgency_heuristic, h]
  · simp only [urgency_heuristic, hs]
    rw [if_pos (Or.inr htbd)]
  · simp only [urgency_heuristic, hs]
    by_cases hg : s.toList = [] ∨ s.toList.map Char.toUpper = ['T', 'B', 'D']
    · rw [if_pos hg]
    · rw [if_neg hg, hparse]

/-- Witness for C3 at a task whose due date is the lowercase sentinel "tbd". -/
theorem urgency_unknown_date_neg_one_witness :
    urgency_heuristic wTaskC3 0 = -1 :=
  urgency_unknown_date_neg_one wTaskC3 0 (Or.inr ⟨"tbd", rfl, Or.inl (by decide)⟩)

/-! ## Claim C4: the ranker is a descending-sorted permutation -/

/-- C4: for every input list and key function, `_merge_sort_tasks` returns a
permutation of its input that is pairwise descending in the key, and it
returns every list of length 0 or 1 unchanged. -/
theorem merge_sort_perm_sorted_id {α : Type} (score_func : α → ℚ) (l : List α) :
    (_merge_sort_tasks l score_func).Perm l ∧
    (_merge_sort_tasks l score_func).Pairwise
      (fun a b => score_func b ≤ score_func a) ∧
    (l.length ≤ 1 → _merge_sort_tasks l score_func = l) :=
  ⟨merge_sort_perm l score_func, merge_sort_sorted l score_func,
    merge_sort_small l score_func⟩

/-- Witness for C4's base case at the one-element rational list `[3]`. -/
theorem merge_sort_perm_sorted_id_witness :
    _merge_sort_tasks [(3 : ℚ)] id = [(3 : ℚ)] :=
  (merge_sort_perm_sorted_id id [(3 : ℚ)]).2.2 (by simp)

/-! ## Claim C6: the daily score formula -/

lemma daily_foldl (l : List Task) (init : ℚ) :
    l.foldl (fun score task =>
      let hours_studied := task.total_work_time / 60
      let score := score + hours_studied * 10
      if task.task_status.toInt = 3 then score + 50 else score) init =
    init + (l.map fun t =>
      t.total_work_time / 60 * 10 +
        if t.task_status = Status.DONE then 50 else 0).sum := by
  induction l generalizing init with
  | nil => simp
  | cons t l ih =>
    rw [List.foldl_cons, ih, List.map_cons, List.sum_cons]
    show (let hours_studied := t.total_work_time / 60
      let score := init + hours_studied * 10
      if t.task_status.toInt = 3 then score + 50 else score) + _ = _
    simp only [status_toInt_eq_three_iff]
    by_cases hd : t.task_status = Status.DONE
    · rw [if_pos hd, if_pos hd]
      ring
    · rw [if_neg hd, if_neg hd]
      ring

/-- C6: the daily score is the sum over all tasks of ten points per hour of
accumulated work plus a flat 50 points per DONE task, rounded to one decimal
place; the empty day scores 0 and a single DONE task with 60 minutes of work
scores 60. -/
theorem daily_score_formula (day : Day) :
    calculate_daily_score day =
      roundTo ((day.tasks.map fun t =>
        t.total_work_time / 60 * 10 +
          if t.task_status = Status.DONE then 50 else 0).sum) 1 ∧
    calculate_daily_score ⟨0, 0, [], []⟩ = 0 ∧
    calculate_daily_score ⟨0, 0, [],
      [{ task_id := 1, title := "hw", date_assigned := DueDate.none,
         due_date := DueDate.none, weighted_percent := 0, points_earned := 0,
         task_status := Status.DONE, total_work_time := 60 }]⟩ = 60 := by
  refine ⟨?_, ?_, ?_⟩
  · rw [calculate_daily_score, daily_foldl, zero_add]
  · norm_num [calculate_daily_score, roundTo, roundHalfEven, Int.floor_zero]
  · norm_num [calculate_daily_score, roundTo, roundHalfEven, Status.toInt]

/-! ## Claim C7: the course grade formula -/

/-- C7: the course grade is 0 when the total weight is exactly 0, and
otherwise `round((weighted_sum / total_weight) * 100, 2)` where only tasks
with positive `points_earned` feed the numerator while every task's weight
counts in the denominator; the (weight 50, points 80) / (weight 50, points 0)
course grades to 40. -/
theorem course_grade_formula (course : Course) :
    ((course.tasks.map fun t => t.weighted_percent).sum = 0 →
      calculate_course_grade course = 0) ∧
    ((course.tasks.map fun t => t.weighted_percent).sum ≠ 0 →
      calculate_course_grade course =
        roundTo ((((course.tasks.filter fun t => 0 < t.points_earned).map
            fun t => t.points_earned / 100 * t.weighted_percent).sum /
          (course.tasks.map fun t => t.weighted_percent).sum) * 100) 2) ∧
    calculate_course_grade
      { course_id := "ECED_3410", hours_study := 0, hours_lecture := 0,
        hours_classwork := 0, grade_percent := 0, calendar := [],
        tasks :=
          [{ task_id := 1, title := "midterm", date_assigned := DueDate.none,
             due_date := DueDate.none, weighted_percent := 50,
             points_earned := 80, task_status := Status.DONE,
             total_work_time := 0 },
           { task_id := 2, title := "final", date_assigned := DueDate.none,
             due_date := DueDate.none, weighted_percent := 50,
             points_earned := 0, task_status := Status.TODO,
             total_work_time := 0 }] } = 40 := by
  refine ⟨fun h => ?_, fun h => ?_,
    by norm_num [calculate_course_grade, roundTo, roundHalfEven,
      List.filter_cons]⟩
  · rw [calculate_course_grade, if_pos h]
  · rw [calculate_course_grade, if_neg h]

/-- Witness for C7's zero-weight branch at a course with no tasks. -/
theorem course_grade_formula_witness :
    calculate_course_grade wCourseEmpty = 0 :=
  (course_grade_formula wCourseEmpty).1 (by simp [wCourseEmpty])

/-! ## Claim C10: grades stay within [0, 100] -/

lemma roundHalfEven_le (x : ℚ) : (roundHalfEven x : ℚ) ≤ x + 1 / 2 := by
  rw [roundHalfEven]
  have h0 : (0 : ℚ) ≤ x - ⌊x⌋ := by
    have := Int.floor_le x
    linarith
  have h1 : x - ⌊x⌋ < 1 := by
    have := Int.lt_floor_add_one x
    linarith
  split_ifs with hf₁ hf₂ hf₃ <;> push_cast <;> linarith

lemma le_roundHalfEven (x : ℚ) : x - 1 / 2 ≤ (roundHalfEven x : ℚ) := by
  rw [roundHalfEven]
  have h0 : (0 : ℚ) ≤ x - ⌊x⌋ := by
    have := Int.floor_le x
    linarith
  have h1 : x - ⌊x⌋ < 1 := by
    have := Int.lt_floor_add_one x
    linarith
  split_ifs with hf₁ hf₂ hf₃ <;> push_cast <;> linarith

lemma roundTo2_bounds {x : ℚ} (h0 : 0 ≤ x) (h100 : x ≤ 100) :
    0 ≤ roundTo x 2 ∧ roundTo x 2 ≤ 100 := by
  have hle := roundHalfEven_le (x * 10 ^ 2)
  have hge := le_roundHalfEven (x * 10 ^ 2)
  norm_num at hle hge
  have hz : (0 : ℤ) ≤ roundHalfEven (x * 10 ^ 2) := by
    have hgt : (-1 : ℚ) < (roundHalfEven (x * 10 ^ 2) : ℚ) := by
      norm_num
      linarith
    have : (-1 : ℤ) < roundHalfEven (x * 10 ^ 2) := by exact_mod_cast hgt
    omega
  have hB : roundHalfEven (x * 10 ^ 2) ≤ (10000 : ℤ) := by
    have hlt : (roundHalfEven (x * 10 ^ 2) : ℚ) < 10001 := by
      norm_num
      linarith
    have : roundHalfEven (x * 10 ^ 2) < (10001 : ℤ) := by exact_mod_cast hlt
    omega
  constructor
  · rw [roundTo]
    positivity
  · rw [roundTo, div_le_iff₀ (by norm_num)]
    calc (roundHalfEven (x * 10 ^ 2) : ℚ) ≤ 10000 := by exact_mod_cast hB
      _ = 100 * 10 ^ 2 := by norm_num

lemma grade_sums_bound (l : List Task)
    (hw : ∀ t ∈ l, 0 ≤ t.weighted_percent ∧ t.weighted_percent ≤ 100)
    (hp : ∀ t ∈ l, 0 ≤ t.points_earned ∧ t.points_earned ≤ 100) :
    0 ≤ ((l.filter fun t => 0 < t.points_earned).map
        fun t => t.points_earned / 100 * t.weighted_percent).sum ∧
    ((l.filter fun t => 0 < t.points_earned).map
        fun t => t.points_earned / 100 * t.weighted_percent).sum ≤
      (l.map fun t => t.weighted_percent).sum ∧
    0 ≤ (l.map fun t => t.weighted_percent).sum := by
  induction l with
  | nil => simp
  | cons t l ih =>
    obtain ⟨ih1, ih2, ih3⟩ :=
      ih (fun u hu => hw u (List.mem_cons_of_mem t hu))
        (fun u hu => hp u (List.mem_cons_of_mem t hu))
    obtain ⟨hw0, hw100⟩ := hw t (List.mem_cons_self t l)
    obtain ⟨hp0, hp100⟩ := hp t (List.mem_cons_self t l)
    have hterm0 : 0 ≤ t.points_earned / 100 * t.weighted_percent :=
      mul_nonneg (div_nonneg hp0 (by norm_num)) hw0
    have hterm : t.points_earned / 100 * t.weighted_percent ≤ t.weighted_percent := by
      have hq : t.points_earned / 100 ≤ 1 := (div_le_one (by norm_num)).mpr hp100
      exact mul_le_of_le_one_left hw0 hq
    by_cases hc : 0 < t.points_earned
    · rw [List.filter_cons, if_pos (by simpa using hc), List.map_cons,
        List.sum_cons, List.map_cons, List.sum_cons]
      refine ⟨by linarith, by linarith, by linarith⟩
    · rw [List.filter_cons, if_neg (by simpa using hc), List.map_cons,
        List.sum_cons]
      refine ⟨by linarith, by linarith, by linarith⟩

/-- C10: when every task of a course has weight and points in [0, 100], the
course grade lies in [0, 100]. -/
theorem course_grade_bounded (course : Course)
    (hw : ∀ t ∈ course.tasks, 0 ≤ t.weighted_percent ∧ t.weighted_percent ≤ 100)
    (hp : ∀ t ∈ course.tasks, 0 ≤ t.points_earned ∧ t.points_earned ≤ 100) :
    0 ≤ calculate_course_grade course ∧ calculate_course_grade course ≤ 100 := by
  obtain ⟨hws0, hwle, htw0⟩ := grade_sums_bound course.tasks hw hp
  rw [calculate_course_grade]
  by_cases hz : (course.tasks.map fun t => t.weighted_percent).sum = 0
  · rw [if_pos hz]
    norm_num
  · rw [if_neg hz]
    have htw : 0 < (course.tasks.map fun t => t.weighted_percent).sum :=
      lt_of_le_of_ne htw0 (Ne.symm hz)
    have hr : ((course.tasks.filter fun t => 0 < t.points_earned).map
        fun t => t.points_earned / 100 * t.weighted_percent).sum /
          (course.tasks.map fun t => t.weighted_percent).sum ≤ 1 :=
      (div_le_one htw).mpr hwle
    have hr0 : 0 ≤ ((course.tasks.filter fun t => 0 < t.points_earned).map
        fun t => t.points_earned / 100 * t.weighted_percent).sum /
          (course.tasks.map fun t => t.weighted_percent).sum :=
      div_nonneg hws0 (le_of_lt htw)
    exact roundTo2_bounds (by nlinarith) (by nlinarith)

/-- Witness for C10 at the one-task course (weight 50, points 80). -/
theorem course_grade_bounded_witness :
    0 ≤ calculate_course_grade wCourseC10 ∧
    calculate_course_grade wCourseC10 ≤ 100 :=
  course_grade_bounded wCourseC10
    (by intro t ht; simp [wCourseC10] at ht; rw [ht]; norm_num [wTaskC10])
    (by intro t ht; simp [wCourseC10] at ht; rw [ht]; norm_num [wTaskC10])

/-! ## Claim C1: the recommendation maximises the urgency score -/

lemma pred_active_iff (u : Task) :
    ((u.task_status.toInt != 3) = true) ↔ u.task_status ≠ Status.DONE := by
  rw [bne_iff_ne]
  exact not_congr (status_toInt_eq_three_iff u.task_status)

/-- When the ranked active tasks are `top :: rest`, the recommendation is
`top` with its freshly recomputed score in the message. -/
lemma get_smart_eq_of_sorted (student : Student) (today : ℚ) (top : Task)
    (rest : List Task)
    (hs : _merge_sort_tasks
        (student.tasks.filter fun t => t.task_status.toInt != 3)
        (fun t => urgency_heuristic t today) = top :: rest) :
    get_smart_recommendation student today =
      (some top, recMessage top (urgency_heuristic top today) today) := by
  have hne : (student.tasks.filter fun t => t.task_status.toInt != 3) ≠ [] := by
    intro h0
    rw [h0, merge_sort_small _ _ (by simp)] at hs
    cases hs
  simp only [get_smart_recommendation]
  rw [if_neg (by simpa [List.isEmpty_iff] using hne), hs]

/-- C1: whenever a student has at least one non-DONE task, the recommendation
returns a task whose urgency score is at least the urgency score of every
non-DONE task of that student. -/
theorem urgency_recommendation_is_max (student : Student) (today : ℚ)
    (h : ∃ t ∈ student.tasks, t.task_status ≠ Status.DONE) :
    ∃ top, (get_smart_recommendation student today).1 = some top ∧
      ∀ t ∈ student.tasks, t.task_status ≠ Status.DONE →
        urgency_heuristic t today ≤ urgency_heuristic top today := by
  obtain ⟨t₀, ht₀, hs₀⟩ := h
  have hne : (student.tasks.filter fun t => t.task_status.toInt != 3) ≠ [] :=
    List.ne_nil_of_mem (List.mem_filter.mpr ⟨ht₀, (pred_active_iff t₀).mpr hs₀⟩)
  have hperm := merge_sort_perm
    (student.tasks.filter fun t => t.task_status.toInt != 3)
    (fun t => urgency_heuristic t today)
  have hsne : _merge_sort_tasks
      (student.tasks.filter fun t => t.task_status.toInt != 3)
      (fun t => urgency_heuristic t today) ≠ [] := by
    intro h0
    rw [h0] at hperm
    exact hne hperm.symm.eq_nil
  obtain ⟨top, rest, hcons⟩ := List.exists_cons_of_ne_nil hsne
  refine ⟨top, by rw [get_smart_eq_of_sorted student today top rest hcons], ?_⟩
  intro t ht hst
  have htmem : t ∈ _merge_sort_tasks
      (student.tasks.filter fun u => u.task_status.toInt != 3)
      (fun u => urgency_heuristic u today) :=
    hperm.mem_iff.mpr (List.mem_filter.mpr ⟨ht, (pred_active_iff t).mpr hst⟩)
  have hsorted := merge_sort_sorted
    (student.tasks.filter fun u => u.task_status.toInt != 3)
    (fun u => urgency_heuristic u today)
  rw [hcons] at htmem hsorted
  rcases List.mem_cons.mp htmem with rfl | hr
  · exact le_rfl
  · exact List.rel_of_pairwise_cons hsorted hr

lemma urgency_wTaskC3_eval : urgency_heuristic wTaskC3 wToday = -1 := by
  simp only [urgency_heuristic,
    show wTaskC3.due_date = DueDate.str "tbd" from rfl]
  rw [if_pos (Or.inr (by decide))]

lemma urgency_wTaskC2_eval : urgency_heuristic wTaskC2 wToday = 20 := by
  rw [urgency_parse_eval wTaskC2 wToday "2025-01-03" 739254 rfl (by decide)]
  have h2 : ((739254 : ℤ) : ℚ) - wToday = ((2 : ℤ) : ℚ) := by
    rw [wToday, show toOrdinal 2025 1 1 = 739252 from by decide]
    push_cast
    norm_num
  rw [h2, Int.floor_intCast,
    show wTaskC2.weighted_percent = 40 from rfl]
  rw [max_eq_left (by push_cast; norm_num)]
  push_cast
  norm_num

lemma sorted_pair_eval :
    _merge_sort_tasks [wTaskC3, wTaskC2]
      (fun t => urgency_heuristic t wToday) = [wTaskC2, wTaskC3] := by
  rw [merge_sort_rec _ _ (by simp)]
  rw [show ([wTaskC3, wTaskC2].length / 2) = 1 from rfl]
  rw [show List.take 1 [wTaskC3, wTaskC2] = [wTaskC3] from rfl]
  rw [show List.drop 1 [wTaskC3, wTaskC2] = [wTaskC2] from rfl]
  rw [merge_sort_small _ _ (by simp), merge_sort_small _ _ (by simp)]
  rw [merge_cons_cons,
    if_neg (by simp only [urgency_wTaskC3_eval, urgency_wTaskC2_eval]; norm_num),
    merge_nil_right]

lemma get_wStudent_eval :
    get_smart_recommendation wStudent wToday =
      (some wTaskC2, recMessage wTaskC2 (urgency_heuristic wTaskC2 wToday) wToday) := by
  apply get_smart_eq_of_sorted
  rw [show (wStudent.tasks.filter fun t => t.task_status.toInt != 3) =
    [wTaskC3, wTaskC2] from rfl]
  exact sorted_pair_eval

/-- Witness for C1: the student with a weight-40 task due in exactly two days
(urgency 20) and a weight-90 task with an unknown due date (urgency -1) is
recommended the two-day task. -/
theorem urgency_recommendation_is_max_witness :
    (get_smart_recommendation wStudent wToday).1 = some wTaskC2 ∧
    (∃ top, (get_smart_recommendation wStudent wToday).1 = some top ∧
      ∀ t ∈ wStudent.tasks, t.task_status ≠ Status.DONE →
        urgency_heuristic t wToday ≤ urgency_heuristic top wToday) :=
  ⟨by rw [get_wStudent_eval],
    urgency_recommendation_is_max wStudent wToday
      ⟨wTaskC2, List.mem_cons_of_mem _ (List.mem_cons_self _ _), by decide⟩⟩

/-! ## Claim C8: the no-active-tasks terminal state -/

/-- C8: a student all of whose tasks are DONE (or who has none) receives no
task and exactly the terminal message, and a returned recommendation is never
a DONE task. -/
theorem recommendation_no_active_tasks :
    (∀ (student : Student) (today : ℚ),
      (∀ t ∈ student.tasks, t.task_status = Status.DONE) →
      get_smart_recommendation student today =
        (none, "No active tasks found! You are free.")) ∧
    (∀ (student : Student) (today : ℚ) (top : Task) (msg : String),
      get_smart_recommendation student today = (some top, msg) →
      top.task_status ≠ Status.DONE) := by
  constructor
  · intro student today hall
    have hfil : (student.tasks.filter fun t => t.task_status.toInt != 3) = [] := by
      rw [List.filter_eq_nil_iff]
      intro t ht
      simp [pred_active_iff t, hall t ht, Status.toInt]
    simp only [get_smart_recommendation, hfil]
    rfl
  · intro student today top msg hget
    by_cases hnil : (student.tasks.filter fun t => t.task_status.toInt != 3) = []
    · simp only [get_smart_recommendation, hnil] at hget
      cases hget
    · have hperm := merge_sort_perm
        (student.tasks.filter fun t => t.task_status.toInt != 3)
        (fun t => urgency_heuristic t today)
      have hsne : _merge_sort_tasks
          (student.tasks.filter fun t => t.task_status.toInt != 3)
          (fun t => urgency_heuristic t today) ≠ [] := by
        intro h0
        rw [h0] at hperm
        exact hnil hperm.symm.eq_nil
      obtain ⟨top', rest, hcons⟩ := List.exists_cons_of_ne_nil hsne
      rw [get_smart_eq_of_sorted student today top' rest hcons] at hget
      have htop : top' = top := by
        have := congrArg Prod.fst hget
        simpa using this
      have hmem : top' ∈ student.tasks.filter fun t => t.task_status.toInt != 3 := by
        refine hperm.mem_iff.mp ?_
        rw [hcons]
        exact List.mem_cons_self _ _
      have := (pred_active_iff top').mp (List.mem_filter.mp hmem).2
      rwa [htop] at this

/-- Witness for C8 at a student whose single task is DONE. -/
theorem recommendation_no_active_tasks_witness :
    get_smart_recommendation wStudentDone 0 =
      (none, "No active tasks found! You are free.") :=
  recommendation_no_active_tasks.1 wStudentDone 0
    (by
      intro t ht
      have ht' : t = wTaskDone := by simpa [wStudentDone] using ht
      rw [ht']
      rfl)

/-! ## Claim C5: tie-breaking and stability of the ranker -/

/-- Refutation of C5's instability clause: there is no input (items tagged
with their strictly increasing original positions) in which two equal-key
elements leave the ranker in reversed relative order; the split at `len // 2`
preserves relative order and the merge favours the left half on ties, so the
sort is stable with respect to the original global order as well. -/
theorem merge_tie_instability_refuted :
    ¬ ∃ (f : Task → ℚ) (l : List (ℕ × Task)) (p q : ℕ × Task),
      l.Pairwise (fun a b => a.1 < b.1) ∧
      List.Sublist [q, p] (_merge_sort_tasks l fun x => f x.2) ∧
      f p.2 = f q.2 ∧ p.1 < q.1 := by
  rintro ⟨f, l, p, q, ht, hsub, heq, hlt⟩
  have hst := merge_sort_stable_keyTag f l ht
  have hqp : List.Pairwise (keyTag f) [q, p] := List.Pairwise.sublist hsub hst
  have hk : keyTag f q p := List.rel_of_pairwise_cons hqp (List.mem_cons_self _ _)
  rcases hk with hlt₂ | ⟨_, hlt₂⟩
  · rw [heq] at hlt₂
    exact lt_irrefl _ hlt₂
  · omega

/-- C5 (amended): in the merge step equal keys emit the left element first,
and consequently the sort is stable with respect to the original global
order (not merely the left/right partition): tagged equal-key elements keep
their original relative order in the output. -/
theorem merge_tie_left_and_stable :
    (∀ (f : Task → ℚ) (a b : Task) (l r : List Task), f a = f b →
      _merge (a :: l) (b :: r) f = a :: _merge l (b :: r) f) ∧
    (∀ (f : Task → ℚ) (l : List (ℕ × Task)),
      l.Pairwise (fun p q => p.1 < q.1) →
      (_merge_sort_tasks l fun p => f p.2).Pairwise
        (fun p q => f p.2 = f q.2 → p.1 < q.1)) := by
  constructor
  · intro f a b l r heq
    rw [merge_cons_cons, if_pos (ge_of_eq heq)]
  · intro f l ht
    refine (merge_sort_stable_keyTag f l ht).imp ?_
    intro p q hk heq
    rcases hk with hlt | ⟨_, h⟩
    · rw [heq] at hlt
      exact absurd hlt (lt_irrefl _)
    · exact h

/-- Witness for C5 (amended) at a constant key function, where every
comparison is a tie. -/
theorem merge_tie_left_and_stable_witness :
    _merge [wTaskC2] [wTaskC3] (fun _ => (5 : ℚ)) =
      wTaskC2 :: _merge [] [wTaskC3] (fun _ => (5 : ℚ)) ∧
    (_merge_sort_tasks [(0, wTaskC2), (1, wTaskC3)]
        (fun p => (fun _ => (5 : ℚ)) p.2)).Pairwise
      (fun p q => (fun _ => (5 : ℚ)) p.2 = (fun _ => (5 : ℚ)) q.2 → p.1 < q.1) :=
  ⟨merge_tie_left_and_stable.1 (fun _ => 5) wTaskC2 wTaskC3 [] [] rfl,
    merge_tie_left_and_stable.2 (fun _ => 5) [(0, wTaskC2), (1, wTaskC3)]
      (by norm_num [List.pairwise_cons])⟩

/-! ## Claim C9: purity and determinism of the analytics entry points -/

lemma urgency_A_T1 : urgency_heuristic probeTaskA probeT1 = 3 / 4 := by
  rw [urgency_parse_eval probeTaskA probeT1 "2025-01-10" 739261 rfl (by decide)]
  have h2 : ((739261 : ℤ) : ℚ) - probeT1 = ((40 : ℤ) : ℚ) := by
    rw [probeT1, show toOrdinal 2024 12 1 = 739221 from by decide]
    push_cast
    norm_num
  rw [h2, Int.floor_intCast, show probeTaskA.weighted_percent = 30 from rfl,
    max_eq_left (by push_cast; norm_num)]
  push_cast
  norm_num

lemma urgency_B_T1 : urgency_heuristic probeTaskB probeT1 = 2 := by
  rw [urgency_parse_eval probeTaskB probeT1 "2025-01-20" 739271 rfl (by decide)]
  have h2 : ((739271 : ℤ) : ℚ) - probeT1 = ((50 : ℤ) : ℚ) := by
    rw [probeT1, show toOrdinal 2024 12 1 = 739221 from by decide]
    push_cast
    norm_num
  rw [h2, Int.floor_intCast, show probeTaskB.weighted_percent = 100 from rfl,
    max_eq_left (by push_cast; norm_num)]
  push_cast
  norm_num

lemma urgency_A_T2 : urgency_heuristic probeTaskA probeT2 = 15 := by
  rw [urgency_parse_eval probeTaskA probeT2 "2025-01-10" 739261 rfl (by decide)]
  have h2 : ((739261 : ℤ) : ℚ) - probeT2 = ((2 : ℤ) : ℚ) := by
    rw [probeT2, show toOrdinal 2025 1 8 = 739259 from by decide]
    push_cast
    norm_num
  rw [h2, Int.floor_intCast, show probeTaskA.weighted_percent = 30 from rfl,
    max_eq_left (by push_cast; norm_num)]
  push_cast
  norm_num

lemma urgency_B_T2 : urgency_heuristic probeTaskB probeT2 = 25 / 3 := by
  rw [urgency_parse_eval probeTaskB probeT2 "2025-01-20" 739271 rfl (by decide)]
  have h2 : ((739271 : ℤ) : ℚ) - probeT2 = ((12 : ℤ) : ℚ) := by
    rw [probeT2, show toOrdinal 2025 1 8 = 739259 from by decide]
    push_cast
    norm_num
  rw [h2, Int.floor_intCast, show probeTaskB.weighted_percent = 100 from rfl,
    max_eq_left (by push_cast; norm_num)]
  push_cast
  norm_num

lemma probe_sorted_T1 :
    _merge_sort_tasks [probeTaskA, probeTaskB]
      (fun t => urgency_heuristic t probeT1) = [probeTaskB, probeTaskA] := by
  rw [merge_sort_rec _ _ (by simp)]
  rw [show ([probeTaskA, probeTaskB].length / 2) = 1 from rfl]
  rw [show List.take 1 [probeTaskA, probeTaskB] = [probeTaskA] from rfl]
  rw [show List.drop 1 [probeTaskA, probeTaskB] = [probeTaskB] from rfl]
  rw [merge_sort_small _ _ (by simp), merge_sort_small _ _ (by simp)]
  rw [merge_cons_cons,
    if_neg (by simp only [urgency_A_T1, urgency_B_T1]; norm_num),
    merge_nil_right]

lemma probe_sorted_T2 :
    _merge_sort_tasks [probeTaskA, probeTaskB]
      (fun t => urgency_heuristic t probeT2) = [probeTaskA, probeTaskB] := by
  rw [merge_sort_rec _ _ (by simp)]
  rw [show ([probeTaskA, probeTaskB].length / 2) = 1 from rfl]
  rw [show List.take 1 [probeTaskA, probeTaskB] = [probeTaskA] from rfl]
  rw [show List.drop 1 [probeTaskA, probeTaskB] = [probeTaskB] from rfl]
  rw [merge_sort_small _ _ (by simp), merge_sort_small _ _ (by simp)]
  rw [merge_cons_cons,
    if_pos (by simp only [urgency_A_T2, urgency_B_T2]; norm_num),
    merge_nil_left]

lemma probe_get_T1 :
    get_smart_recommendation probeStudent probeT1 =
      (some probeTaskB,
        recMessage probeTaskB (urgency_heuristic probeTaskB probeT1) probeT1) := by
  apply get_smart_eq_of_sorted
  rw [show (probeStudent.tasks.filter fun t => t.task_status.toInt != 3) =
    [probeTaskA, probeTaskB] from rfl]
  exact probe_sorted_T1

lemma probe_get_T2 :
    get_smart_recommendation probeStudent probeT2 =
      (some probeTaskA,
        recMessage probeTaskA (urgency_heuristic probeTaskA probeT2) probeT2) := by
  apply get_smart_eq_of_sorted
  rw [show (probeStudent.tasks.filter fun t => t.task_status.toInt != 3) =
    [probeTaskA, probeTaskB] from rfl]
  exact probe_sorted_T2

/-- Refutation of C9 as stated for the recommendation entry point: the Python
function's only explicit input is the student, yet its result varies with the
ambient clock `datetime.now()` (surfaced here as the `today` parameter): the
same student gets task B recommended on 2024-12-01 and task A on 2025-01-08. -/
theorem analytics_clock_dependence :
    get_smart_recommendation probeStudent probeT1 ≠
      get_smart_recommendation probeStudent probeT2 := by
  rw [probe_get_T1, probe_get_T2]
  intro h
  have h1 : probeTaskB = probeTaskA := by
    have := congrArg Prod.fst h
    simpa using this
  have h2 := congrArg Task.task_id h1
  simp only [probeTaskA, probeTaskB] at h2
  exact absurd h2 (by decide)

/-- C9 (amended): each analytics entry point is a deterministic function of
its inputs once the clock instant read inside the recommendation is included
among them: identical inputs (and identical `now`) give identical results. -/
theorem analytics_deterministic_in_inputs :
    (∀ d₁ d₂ : Day, d₁ = d₂ →
      calculate_daily_score d₁ = calculate_daily_score d₂) ∧
    (∀ c₁ c₂ : Course, c₁ = c₂ →
      calculate_course_grade c₁ = calculate_course_grade c₂) ∧
    (∀ (s₁ s₂ : Student) (t₁ t₂ : ℚ), s₁ = s₂ → t₁ = t₂ →
      get_smart_recommendation s₁ t₁ = get_smart_recommendation s₂ t₂) :=
  ⟨fun _ _ h => by rw [h], fun _ _ h => by rw [h],
    fun _ _ _ _ h₁ h₂ => by rw [h₁, h₂]⟩

/-- Witness for C9 (amended) at a concrete student and instant. -/
theorem analytics_deterministic_in_inputs_witness :
    get_smart_recommendation probeStudent probeT1 =
      get_smart_recommendation probeStudent probeT1 :=
  analytics_deterministic_in_inputs.2.2 probeStudent probeStudent
    probeT1 probeT1 rfl rfl

end SPAP
